import Mathlib

/-!
Verification development for the Farm-Pro-Backend report engine
(internal/api/reports_helpers.go and the report generation handler).

The Go code is shallowly embedded: strings are Lean strings (operated on
through their character lists, matching the byte-level Go code on the
ASCII data the report engine produces), Go float64 values are modelled as
rationals, Go int values as Int or Nat where the source guarantees
nonnegativity, and the untyped map values of the record/summary maps are
modelled by an explicit variant type.
-/

namespace FarmPro

/-- Model of Go unicode.IsSpace restricted to the ASCII space characters,
as used by strings.TrimSpace / strings.Fields. -/
def goIsSpace (c : Char) : Bool :=
  c = ' ' || c = '\t' || c = '\n' || c = '\x0b' || c = '\x0c' || c = '\r'

def trimChars (l : List Char) : List Char :=
  ((l.dropWhile goIsSpace).reverse.dropWhile goIsSpace).reverse

/-- Model of strings.TrimSpace. -/
def goTrim (s : String) : String := ⟨trimChars s.data⟩

def lowerChar (c : Char) : Char :=
  if 'A' ≤ c && c ≤ 'Z' then Char.ofNat (c.toNat + 32) else c

def upperChar (c : Char) : Char :=
  if 'a' ≤ c && c ≤ 'z' then Char.ofNat (c.toNat - 32) else c

/-- Model of strings.ToLower (character-wise case folding). -/
def goLower (s : String) : String := ⟨s.data.map lowerChar⟩

/-- Model of strings.ToUpper (character-wise case folding). -/
def goUpper (s : String) : String := ⟨s.data.map upperChar⟩

/-- Model of strings.Index: position of the first occurrence of pat. -/
def subIdx (pat : List Char) : List Char → Option Nat
  | [] => if pat.isEmpty then some 0 else none
  | c :: rest =>
    if pat.isPrefixOf (c :: rest) then some 0
    else (subIdx pat rest).map (· + 1)

/-- Model of strings.LastIndex: position of the last occurrence of pat. -/
def lastIdx (pat : List Char) : List Char → Option Nat
  | [] => if pat.isEmpty then some 0 else none
  | c :: rest =>
    match lastIdx pat rest with
    | some k => some (k + 1)
    | none => if pat.isPrefixOf (c :: rest) then some 0 else none

/-- Model of strings.Contains. -/
def containsSub (l pat : List Char) : Bool := (subIdx pat l).isSome

/-- normalizeReportType from reports_helpers.go. -/
def normalizeReportType (v : String) : String :=
  let s := goLower (goTrim v)
  if s = "financial" then "Financial"
  else if s = "health" then "Health"
  else if s = "resources" then "Resources"
  else if s = "sales" then "Sales"
  else "Financial"

/-- normalizeDateRange from reports_helpers.go. -/
def normalizeDateRange (v : String) : String :=
  let s := goLower (goTrim v)
  if s = "last 7 days" then "Last 7 days"
  else if s = "last 30 days" then "Last 30 days"
  else if s = "this month" then "This month"
  else "Last 7 days"

/-- normalizeReportFormat from reports_helpers.go. -/
def normalizeReportFormat (v : String) : String :=
  let s := goUpper (goTrim v)
  if s = "PDF" then "PDF"
  else if s = "CSV" then "CSV"
  else if s = "JSON" then "JSON"
  else "JSON"

/-- parseReportMetadata from reports_helpers.go: decodes the stored
description into the pair (dateRange, format). -/
def parseReportMetadata (description : String) : String × String :=
  let desc := goTrim description
  if desc = "" then ("Last 7 days", "JSON")
  else
    let lower := goLower desc
    if containsSub lower.data "| range=".data then
      let parts := (List.splitOn '|' desc.data).map (fun l => (⟨l⟩ : String))
      parts.foldl (fun acc p =>
        let segment := goTrim p
        if "range=".data.isPrefixOf (goLower segment).data then
          (normalizeDateRange (goTrim ⟨segment.data.drop 6⟩), acc.2)
        else if "format=".data.isPrefixOf (goLower segment).data then
          (acc.1, normalizeReportFormat (goTrim ⟨segment.data.drop 7⟩))
        else acc) ("Last 7 days", "JSON")
    else
      let dchars := desc.data
      let fmt :=
        match lastIdx ['('] dchars with
        | some i =>
          if [')'].isSuffixOf dchars && decide (i < dchars.length - 1) then
            normalizeReportFormat ⟨(dchars.drop (i + 1)).take (dchars.length - 1 - (i + 1))⟩
          else "JSON"
        | none => "JSON"
      let range :=
        match subIdx " for ".data lower.data with
        | some i =>
          let rest := goTrim ⟨dchars.drop (i + 5)⟩
          let rest2 :=
            match lastIdx [' ', '('] rest.data with
            | some j => if 0 < j then goTrim ⟨rest.data.take j⟩ else rest
            | none => rest
          normalizeDateRange rest2
        | none => "Last 7 days"
      (range, fmt)

/-- The canonical description written by handleGenerateReport in
write_handlers.go (the handler has already normalized its inputs when it
builds this string). -/
def reportDescription (reportType dateRange format : String) : String :=
  "Generated " ++ goLower reportType ++ " report | range=" ++ dateRange ++
    " | format=" ++ format

theorem normalizeDateRange_mem (v : String) :
    normalizeDateRange v ∈ ["Last 7 days", "Last 30 days", "This month"] := by
  unfold normalizeDateRange
  dsimp only
  split_ifs
  all_goals simp

theorem normalizeReportFormat_mem (v : String) :
    normalizeReportFormat v ∈ ["PDF", "CSV", "JSON"] := by
  unfold normalizeReportFormat
  dsimp only
  split_ifs
  all_goals simp

theorem normalizeReportType_mem (v : String) :
    normalizeReportType v ∈ ["Financial", "Health", "Resources", "Sales"] := by
  unfold normalizeReportType
  dsimp only
  split_ifs
  all_goals simp

/-- Claim C1: decoding the canonical encoded description produced by the
generate handler (whose range and format arguments have already been
normalized) returns exactly the pair of the normalized date range and the
normalized format, for each of the four categories. -/
theorem metadata_codec_roundtrip (category r f : String)
    (hc : category ∈ ["Financial", "Health", "Resources", "Sales"]) :
    parseReportMetadata
        (reportDescription category (normalizeDateRange r) (normalizeReportFormat f)) =
      (normalizeDateRange r, normalizeReportFormat f) := by
  have hr := normalizeDateRange_mem r
  have hf := normalizeReportFormat_mem f
  simp only [List.mem_cons, List.not_mem_nil, or_false] at hr hf
  fin_cases hc <;>
    (rcases hr with h1 | h1 | h1 <;> rcases hf with h2 | h2 | h2 <;>
      rw [h1, h2] <;> decide)

/-- Witness for C1 at a concrete category, range and format. -/
theorem metadata_codec_roundtrip_witness :
    parseReportMetadata
        (reportDescription "Health" (normalizeDateRange " LAST 30 DAYS ")
          (normalizeReportFormat "csv")) =
      (normalizeDateRange " LAST 30 DAYS ", normalizeReportFormat "csv") :=
  metadata_codec_roundtrip "Health" " LAST 30 DAYS " "csv" (by decide)

/-- The legacy-form parenthesis marker test performed by
parseReportMetadata on its trimmed input. -/
def parenMarker (desc : String) : Bool :=
  match lastIdx ['('] desc.data with
  | some i => [')'].isSuffixOf desc.data && decide (i < desc.data.length - 1)
  | none => false

/-- A description with none of the markers parseReportMetadata looks for:
no pipe-delimited range segment, no trailing parenthesized format, and no
legacy for-clause. -/
def noRecognizableMarker (s : String) : Prop :=
  containsSub (goLower (goTrim s)).data "| range=".data = false ∧
    parenMarker (goTrim s) = false ∧
    subIdx " for ".data (goLower (goTrim s)).data = none

instance (s : String) : Decidable (noRecognizableMarker s) := by
  unfold noRecognizableMarker
  infer_instance

/-- Claim C7: every unrecognized input normalizes to the documented
default (Last 7 days, JSON, Financial respectively), and decoding a
description containing no recognizable marker yields exactly the default
pair; all four operations are total functions. -/
theorem normalization_totality :
    (∀ s : String,
        goLower (goTrim s) ∉ (["last 7 days", "last 30 days", "this month"] : List String) →
          normalizeDateRange s = "Last 7 days") ∧
      (∀ s : String,
        goUpper (goTrim s) ∉ (["PDF", "CSV", "JSON"] : List String) →
          normalizeReportFormat s = "JSON") ∧
      (∀ s : String,
        goLower (goTrim s) ∉ (["financial", "health", "resources", "sales"] : List String) →
          normalizeReportType s = "Financial") ∧
      (∀ s : String, noRecognizableMarker s →
        parseReportMetadata s = ("Last 7 days", "JSON")) := by
  refine ⟨?_, ?_, ?_, ?_⟩
  · intro s h
    unfold normalizeDateRange
    dsimp only
    split_ifs <;> simp_all
  · intro s h
    unfold normalizeReportFormat
    dsimp only
    split_ifs <;> simp_all
  · intro s h
    unfold normalizeReportType
    dsimp only
    split_ifs <;> simp_all
  · intro s hs
    obtain ⟨hm, hp, hfor⟩ := hs
    unfold parseReportMetadata
    dsimp only
    by_cases h0 : goTrim s = ""
    · rw [if_pos h0]
    · rw [if_neg h0]
      simp only [hm, Bool.false_eq_true, if_false]
      unfold parenMarker at hp
      rcases hL : lastIdx ['('] (goTrim s).data with _ | i
      · simp [hL, hfor]
      · rw [hL] at hp
        dsimp only at hp
        simp only [Bool.and_eq_false_iff, decide_eq_false_iff_not] at hp
        simp only [hL, hfor]
        rcases hp with hp | hp
        · simp [hp]
        · have hd : decide (i < (goTrim s).data.length - 1) = false := decide_eq_false hp
          rw [hd, Bool.and_false]
          simp

/-- Witness for C7 at concrete unrecognized inputs. -/
theorem normalization_totality_witness :
    normalizeDateRange "centuries" = "Last 7 days" ∧
      normalizeReportFormat "yaml" = "JSON" ∧
      normalizeReportType "botany" = "Financial" ∧
      parseReportMetadata "Quarterly overview" = ("Last 7 days", "JSON") :=
  ⟨normalization_totality.1 "centuries" (by decide),
   normalization_totality.2.1 "yaml" (by decide),
   normalization_totality.2.2.1 "botany" (by decide),
   normalization_totality.2.2.2 "Quarterly overview" (by decide)⟩

/-- intMax from reports_helpers.go (the report code only applies it to
nonnegative quantities, so it is modelled on Nat). -/
def intMax (a b : Nat) : Nat := if a > b then a else b

def strTake (s : String) (n : Nat) : String := ⟨s.data.take n⟩

/-- shortenPDFText from reports_helpers.go. -/
def shortenPDFText (s : String) (max : Nat) : String :=
  let v := goTrim s
  if max ≤ 3 ∨ v.length ≤ max then v
  else strTake v (max - 3) ++ "..."

/-- The per-cell character budget computed inline by buildStyledPDF for a
column of the given pixel width. -/
def cellMaxChars (width : Nat) : Nat := intMax 6 ((width - 10) / 4)

/-- Claim C10: shortenPDFText trims its input; with a budget of at most 3
it returns the trimmed string unchanged, and with a larger budget the
result never exceeds the budget, being the trimmed string when it fits
and its first budget minus 3 characters plus an ellipsis otherwise. -/
theorem shortenPDFText_spec (s : String) (max : Nat) :
    (max ≤ 3 → shortenPDFText s max = goTrim s) ∧
      (3 < max →
        (shortenPDFText s max).length ≤ max ∧
          ((goTrim s).length ≤ max → shortenPDFText s max = goTrim s) ∧
          (max < (goTrim s).length →
            shortenPDFText s max = strTake (goTrim s) (max - 3) ++ "...")) := by
  unfold shortenPDFText
  dsimp only
  constructor
  · intro h
    rw [if_pos (Or.inl h)]
  · intro h
    refine ⟨?_, ?_, ?_⟩
    · split_ifs with hc
      · rcases hc with hc | hc
        · omega
        · exact hc
      · have : ¬(goTrim s).length ≤ max := fun hle => hc (Or.inr hle)
        rw [String.length_append, strTake, String.length]
        simp only [List.length_take]
        have : ("..." : String).length = 3 := rfl
        rw [this]
        omega
    · intro hle
      rw [if_pos (Or.inr hle)]
    · intro hgt
      rw [if_neg]
      omega

/-- Witness for C10 at concrete budgets. -/
theorem shortenPDFText_spec_witness :
    shortenPDFText "  abcdefgh  " 3 = "abcdefgh" ∧
      shortenPDFText "  abcdefgh  " 5 = "ab..." ∧
      shortenPDFText " abc " 5 = "abc" :=
  ⟨((shortenPDFText_spec "  abcdefgh  " 3).1 (by decide)).trans (by decide),
   (((shortenPDFText_spec "  abcdefgh  " 5).2 (by decide)).2.2 (by decide)).trans (by decide),
   (((shortenPDFText_spec " abc " 5).2 (by decide)).2.1 (by decide)).trans (by decide)⟩

/-- Counterexample to C3 as stated: the cell budget for a column 92
pixels wide is 20 in the code, not max of 6 and 92 divided by 4, which
is 23. -/
theorem cellMaxChars_cex :
    cellMaxChars 92 = 20 ∧ cellMaxChars 92 ≠ max 6 (92 / 4) := by decide

/-- Claim C3 (amended): the cell budget for a column of pixel width w is
max of 6 and the integer quotient of w minus 10 by 4; every budget
exceeds 3, and a trimmed cell string longer than the budget renders as
its first budget minus 3 characters followed by an ellipsis, for a total
of exactly the budget. -/
theorem cell_truncation (w : Nat) (s : String) :
    cellMaxChars w = max 6 ((w - 10) / 4) ∧
      3 < cellMaxChars w ∧
      (cellMaxChars w < (goTrim s).length →
        shortenPDFText s (cellMaxChars w) =
            strTake (goTrim s) (cellMaxChars w - 3) ++ "..." ∧
          (shortenPDFText s (cellMaxChars w)).length = cellMaxChars w) := by
  have hmax : cellMaxChars w = max 6 ((w - 10) / 4) := by
    unfold cellMaxChars intMax
    split <;> omega
  have h6 : 6 ≤ cellMaxChars w := by rw [hmax]; omega
  refine ⟨hmax, by omega, fun hgt => ⟨?_, ?_⟩⟩
  · exact ((shortenPDFText_spec s (cellMaxChars w)).2 (by omega)).2.2 hgt
  · have heq := ((shortenPDFText_spec s (cellMaxChars w)).2 (by omega)).2.2 hgt
    rw [heq, String.length_append, strTake, String.length]
    simp only [List.length_take]
    have h3 : ("..." : String).length = 3 := rfl
    rw [h3]
    have hdl : (goTrim s).length = (goTrim s).data.length := rfl
    omega

/-- Witness for C3: a column 50 pixels wide gives exactly the budget 10
of the spec example, and a 50-character string then renders as its first
7 characters plus the ellipsis. -/
theorem cell_truncation_witness :
    cellMaxChars 50 = 10 ∧
      shortenPDFText (String.mk (List.replicate 50 'x')) (cellMaxChars 50) =
          strTake (goTrim (String.mk (List.replicate 50 'x'))) (cellMaxChars 50 - 3) ++ "..." ∧
        (shortenPDFText (String.mk (List.replicate 50 'x')) (cellMaxChars 50)).length =
          cellMaxChars 50 :=
  ⟨by decide,
   (cell_truncation 50 (String.mk (List.replicate 50 'x'))).2.2 (by decide)⟩

/-- Variant type modelling the Go interface values stored in the
summary and record maps (strings, int64 counts, float64 amounts and the
vat flag). -/
inductive GoVal where
  | vstr : String → GoVal
  | vint : Int → GoVal
  | vfloat : ℚ → GoVal
  | vbool : Bool → GoVal
deriving DecidableEq

/-- Smallest count of decimal digits within the float precision bound
that makes the denominator divide a power of ten; used to model the
shortest decimal form fmt prints for a float64. -/
def termExpList (den : Nat) : Nat :=
  match (List.range 18).find? (fun k => 10 ^ k % den = 0) with
  | some k => k
  | none => 17

def padLeftZeros (w : Nat) (s : String) : String :=
  ⟨List.replicate (w - s.length) '0'⟩ ++ s

/-- Model of fmt.Sprint on a float64 value (Go prints the shortest
decimal form; on the terminating decimals produced by the report engine
this is the plain decimal expansion without trailing zeros), computed on
the numerator and denominator of the rational. -/
def ratSprint (q : ℚ) : String :=
  if q.den = 1 then toString q.num
  else
    let k := termExpList q.den
    let n := q.num.natAbs * 10 ^ k / q.den
    (if q.num < 0 then "-" else "") ++ toString (n / 10 ^ k) ++ "." ++
      padLeftZeros k (toString (n % 10 ^ k))

/-- Model of fmt.Sprint / the Sprintf percent-v verb on a map value. -/
def goSprint : GoVal → String
  | .vstr s => s
  | .vint n => toString n
  | .vfloat q => ratSprint q
  | .vbool b => if b then "true" else "false"

/-- fmt.Sprint of a map lookup: a missing key is a nil interface, which
Go prints as the nil placeholder. -/
def goSprintOpt : Option GoVal → String
  | some v => goSprint v
  | none => "<nil>"

/-- asFloat64 from reports_helpers.go (the numeric coercion switch). -/
def asFloat64 : GoVal → Option ℚ
  | .vfloat q => some q
  | .vint n => some (n : ℚ)
  | _ => none

/-- Round to nearest with ties to even of the fraction num over den
(den positive), computed with integer arithmetic. -/
def roundHalfEvenPair (num den : ℤ) : ℤ :=
  let f := Int.fdiv num den
  let r2 := 2 * (num - f * den)
  if r2 < den then f
  else if den < r2 then f + 1
  else if f % 2 = 0 then f else f + 1

def pad2 (k : Nat) : String := if k < 10 then "0" ++ toString k else toString k

/-- Model of strconv.FormatFloat(v, f-verb, 2, 64): two fixed decimal
places, rounding to nearest with ties to even, sign taken from the
value. -/
def formatFixed2 (q : ℚ) : String :=
  let n := roundHalfEvenPair (100 * q.num) (q.den : ℤ)
  let sign := if q.num < 0 then "-" else ""
  let m := n.natAbs
  sign ++ toString (m / 100) ++ "." ++ pad2 (m % 100)

/-- trimZero from utils.go: integral values print with no decimals,
others with exactly two decimal places. -/
def trimZero (v : ℚ) : String :=
  if v.den = 1 then toString v.num else formatFixed2 v

/-- formatKES from farm_handlers.go. -/
def formatKES (v : ℚ) : String := "KSh " ++ trimZero v

/-- formatAnyCurrency from reports_helpers.go. -/
def formatAnyCurrency (v : GoVal) : String :=
  match asFloat64 v with
  | some n => formatKES n
  | none => goSprint v

/-- formatAnyNumber from reports_helpers.go. -/
def formatAnyNumber (v : GoVal) : String :=
  match asFloat64 v with
  | some n => trimZero n
  | none => goSprint v

/-- Model of math.Round: round to nearest, half away from zero, computed
with integer arithmetic on the numerator and denominator. -/
def goRound (q : ℚ) : ℤ :=
  if 0 ≤ q.num then (2 * q.num + q.den).fdiv (2 * q.den)
  else -((2 * (-q.num) + (q.den : ℤ)).fdiv (2 * q.den))

/-- formatSummaryValue from reports_helpers.go. -/
def formatSummaryValue (key : String) (value : GoVal) : String :=
  let k := goLower (goTrim key)
  if k = "grossrevenue" ∨ k = "netrevenue" ∨ k = "profit" ∨ k = "totalexpenses" ∨
      k = "totalrevenue" ∨ k = "vatcollected" ∨ k = "totalvalue" then
    formatAnyCurrency value
  else if k = "transactions" ∨ k = "healthy" ∨ k = "attention" ∨ k = "sick" ∨
      k = "eggscount" then
    match asFloat64 value with
    | some n => toString (goRound n)
    | none => goSprint value
  else if k = "milkliters" ∨ k = "woolkg" then
    formatAnyNumber value
  else
    match asFloat64 value with
    | some n => trimZero n
    | none => goSprint value

theorem pad2_length : ∀ k : Nat, k < 100 → (pad2 k).length = 2 := by decide

theorem formatFixed2_shape (q : ℚ) :
    ∃ whole frac, formatFixed2 q = whole ++ "." ++ frac ∧ frac.length = 2 := by
  unfold formatFixed2
  dsimp only
  exact ⟨_, _, rfl, pad2_length _ (Nat.mod_lt _ (by norm_num))⟩

/-- Claim C8: currency-class summary keys render as the KSh prefix plus
the amount with no decimals when integral and exactly two decimal places
otherwise; count-class keys render as the value rounded to the nearest
integer with no decimals. -/
theorem value_formatter_spec :
    (∀ k ∈ (["grossRevenue", "netRevenue", "profit", "totalExpenses", "totalRevenue",
        "vatCollected", "totalValue"] : List String), ∀ q : ℚ,
      formatSummaryValue k (GoVal.vfloat q) = "KSh " ++ trimZero q ∧
        (q.den = 1 → formatSummaryValue k (GoVal.vfloat q) = "KSh " ++ toString q.num) ∧
        (q.den ≠ 1 → ∃ whole frac,
          formatSummaryValue k (GoVal.vfloat q) = "KSh " ++ (whole ++ "." ++ frac) ∧
            frac.length = 2)) ∧
      (∀ k ∈ (["transactions", "healthy", "attention", "sick", "eggsCount"] : List String),
        ∀ q : ℚ, formatSummaryValue k (GoVal.vfloat q) = toString (goRound q)) ∧
      formatSummaryValue "grossRevenue" (GoVal.vfloat 150) = "KSh 150" ∧
      formatSummaryValue "grossRevenue" (GoVal.vfloat (301 / 2)) = "KSh 150.50" := by
  refine ⟨?_, ?_, ?_, ?_⟩
  · intro k hk q
    have hcur : formatSummaryValue k (GoVal.vfloat q) = "KSh " ++ trimZero q := by
      fin_cases hk <;>
        (unfold formatSummaryValue; dsimp only; rw [if_pos (by decide)]; rfl)
    refine ⟨hcur, ?_, ?_⟩
    · intro hq
      rw [hcur]
      unfold trimZero
      rw [if_pos hq]
    · intro hq
      rw [hcur]
      unfold trimZero
      rw [if_neg hq]
      obtain ⟨whole, frac, hw, hl⟩ := formatFixed2_shape q
      exact ⟨whole, frac, by rw [hw], hl⟩
  · intro k hk q
    fin_cases hk <;>
      (unfold formatSummaryValue; dsimp only;
        rw [if_neg (by decide), if_pos (by decide)]; rfl)
  · decide
  · rw [show (301 : ℚ) / 2 = Rat.mk' 301 2 (by decide) (by decide) by
      rw [Rat.mk'_eq_divInt, Rat.divInt_eq_div]; norm_num]
    decide

/-- Witness for C8 at concrete keys and values. -/
theorem value_formatter_spec_witness :
    formatSummaryValue "netRevenue" (GoVal.vfloat (7 / 2)) = "KSh 3.50" ∧
      formatSummaryValue "transactions" (GoVal.vfloat (5 / 2)) = "3" := by
  have h72 : (7 : ℚ) / 2 = Rat.mk' 7 2 (by decide) (by decide) := by
    rw [Rat.mk'_eq_divInt, Rat.divInt_eq_div]; norm_num
  have h52 : (5 : ℚ) / 2 = Rat.mk' 5 2 (by decide) (by decide) := by
    rw [Rat.mk'_eq_divInt, Rat.divInt_eq_div]; norm_num
  refine ⟨((value_formatter_spec.1 "netRevenue" (by decide) (7 / 2)).1).trans ?_,
    (value_formatter_spec.2.1 "transactions" (by decide) (5 / 2)).trans ?_⟩
  · rw [h72]; decide
  · rw [h52]; decide

/-- The ephemeral report content structure from reports_helpers.go; summary
and record maps are modelled as association lists with distinct keys. -/
structure reportContent where
  id : Int
  title : String
  category : String
  dateRange : String
  format : String
  generatedOn : String
  summary : List (String × GoVal)
  records : List (List (String × GoVal))

/-- Go map indexing: the value stored under the key, if present. -/
def mapGet (r : List (String × GoVal)) (k : String) : Option GoVal :=
  (r.find? (fun p => p.1 == k)).map Prod.snd

/-- fmt.Sprint of a Go map access (missing keys are nil). -/
def sprintGet (r : List (String × GoVal)) (k : String) : String :=
  goSprintOpt (mapGet r k)

def formatAnyCurrencyOpt : Option GoVal → String
  | some v => formatAnyCurrency v
  | none => "<nil>"

def formatAnyNumberOpt : Option GoVal → String
  | some v => formatAnyNumber v
  | none => "<nil>"

/-- titleWord from reports_helpers.go. -/
def titleWord (v : String) : String :=
  let s := goLower (goTrim v)
  match s.data with
  | [] => ""
  | c :: rest => ⟨upperChar c :: rest⟩

/-- formatRecordHighlight from reports_helpers.go. -/
def formatRecordHighlight (category : String) (record : List (String × GoVal)) : String :=
  let c := goLower (goTrim category)
  if c = "financial" then
    sprintGet record "date" ++ " | " ++ titleWord (sprintGet record "type") ++ " | " ++
      sprintGet record "item" ++ " | " ++ formatAnyCurrencyOpt (mapGet record "amount")
  else if c = "sales" then
    sprintGet record "date" ++ " | " ++ sprintGet record "product" ++ " | " ++
      goTrim (formatAnyNumberOpt (mapGet record "quantityValue") ++ " " ++
        sprintGet record "quantityUnit") ++ " | " ++
      sprintGet record "buyer" ++ " | " ++ formatAnyCurrencyOpt (mapGet record "totalAmount")
  else if c = "resources" then
    sprintGet record "date" ++ " | Milk " ++ formatAnyNumberOpt (mapGet record "milkLiters") ++
      " L | Eggs " ++ formatAnyNumberOpt (mapGet record "eggsCount") ++ " | Wool " ++
      formatAnyNumberOpt (mapGet record "woolKg") ++ " Kg | " ++
      formatAnyCurrencyOpt (mapGet record "totalValue")
  else if c = "health" then
    sprintGet record "date" ++ " | Tag " ++ sprintGet record "animalTagId" ++ " | " ++
      sprintGet record "action" ++ " | " ++ sprintGet record "treatment" ++ " | Vet: " ++
      sprintGet record "veterinarian"
  else
    let keys := List.insertionSort (fun a b => a ≤ b) (record.map Prod.fst)
    String.intercalate " | " (keys.map (fun k => k ++ "=" ++ sprintGet record k))

def financialRow (i : Nat) (r : List (String × GoVal)) : List String :=
  [toString (i + 1), sprintGet r "date", titleWord (sprintGet r "type"),
   sprintGet r "item", formatAnyCurrencyOpt (mapGet r "amount")]

def salesRow (i : Nat) (r : List (String × GoVal)) : List String :=
  [toString (i + 1), sprintGet r "date", sprintGet r "product",
   goTrim (formatAnyNumberOpt (mapGet r "quantityValue") ++ " " ++ sprintGet r "quantityUnit"),
   sprintGet r "buyer", formatAnyCurrencyOpt (mapGet r "totalAmount")]

def resourcesRow (i : Nat) (r : List (String × GoVal)) : List String :=
  [toString (i + 1), sprintGet r "date", formatAnyNumberOpt (mapGet r "milkLiters"),
   formatAnyNumberOpt (mapGet r "eggsCount"), formatAnyNumberOpt (mapGet r "woolKg"),
   formatAnyCurrencyOpt (mapGet r "totalValue")]

def healthRow (i : Nat) (r : List (String × GoVal)) : List String :=
  [toString (i + 1), sprintGet r "date", sprintGet r "animalTagId", sprintGet r "action",
   sprintGet r "treatment", sprintGet r "veterinarian"]

/-- One iteration of the row loop of buildRecordHighlights: the indexed
record rendered through the switch on the normalized category. -/
def highlightRow (report : reportContent) (p : Nat × List (String × GoVal)) :
    List String :=
  let category := goLower (goTrim report.category)
  if category = "financial" then financialRow p.1 p.2
  else if category = "sales" then salesRow p.1 p.2
  else if category = "resources" then resourcesRow p.1 p.2
  else if category = "health" then healthRow p.1 p.2
  else [toString (p.1 + 1), formatRecordHighlight report.category p.2]

/-- buildRecordHighlights from reports_helpers.go. -/
def buildRecordHighlights (report : reportContent) :
    List String × List (List String) × String :=
  if report.records.length = 0 then
    (["#", "Details"], [["1", "No records available in this range."]], "")
  else
    let category := goLower (goTrim report.category)
    let headers :=
      if category = "financial" then ["#", "Date", "Type", "Item", "Amount"]
      else if category = "sales" then ["#", "Date", "Product", "Qty", "Buyer", "Total"]
      else if category = "resources" then ["#", "Date", "Milk (L)", "Eggs", "Wool (Kg)", "Value"]
      else if category = "health" then ["#", "Date", "Tag", "Action", "Treatment", "Vet"]
      else ["#", "Details"]
    let maxRows := if report.records.length > 12 then 12 else report.records.length
    let rows := (report.records.take maxRows).enum.map (highlightRow report)
    let overflow :=
      if report.records.length > maxRows then
        toString (report.records.length - maxRows) ++ " additional records not shown."
      else ""
    (headers, rows, overflow)

/-- Claim C4: zero records produce exactly the single placeholder row and
an empty overflow note; more than 12 records produce exactly the first 12
records rendered as rows, in order, with the overflow note counting the
remainder; between 1 and 12 records produce exactly one rendered row per
record, in order, and an empty note. -/
theorem highlight_rows_spec (report : reportContent) :
    (report.records = [] →
        buildRecordHighlights report =
          (["#", "Details"], [["1", "No records available in this range."]], "")) ∧
      (12 < report.records.length →
        (buildRecordHighlights report).2.1 =
            (report.records.take 12).enum.map (highlightRow report) ∧
          (buildRecordHighlights report).2.1.length = 12 ∧
          (buildRecordHighlights report).2.2 =
            toString (report.records.length - 12) ++ " additional records not shown.") ∧
      (1 ≤ report.records.length → report.records.length ≤ 12 →
        (buildRecordHighlights report).2.1 =
            report.records.enum.map (highlightRow report) ∧
          (buildRecordHighlights report).2.1.length = report.records.length ∧
          (buildRecordHighlights report).2.2 = "") := by
  unfold buildRecordHighlights
  dsimp only
  refine ⟨?_, ?_, ?_⟩
  · intro h
    rw [if_pos (show report.records.length = 0 by rw [h]; rfl)]
  · intro h
    rw [if_neg (show ¬report.records.length = 0 by omega)]
    have hmax : (if report.records.length > 12 then 12 else report.records.length) = 12 :=
      if_pos h
    rw [hmax, if_pos h]
    refine ⟨rfl, ?_, rfl⟩
    simp only [List.length_map, List.enum_length, List.length_take]
    omega
  · intro h1 h2
    rw [if_neg (show ¬report.records.length = 0 by omega)]
    have hmax :
        (if report.records.length > 12 then 12 else report.records.length) =
          report.records.length :=
      if_neg (by omega)
    rw [hmax, if_neg (show ¬report.records.length > report.records.length by omega)]
    refine ⟨?_, ?_, rfl⟩
    · rw [List.take_length]
    · simp only [List.length_map, List.enum_length, List.length_take]
      omega

def sampleFinancialRecord : List (String × GoVal) :=
  [("date", GoVal.vstr "2026-01-05"), ("type", GoVal.vstr "sale"),
   ("item", GoVal.vstr "eggs"), ("amount", GoVal.vint 100)]

def sampleReport15 : reportContent :=
  ⟨7, "Weekly", "Financial", "Last 7 days", "PDF", "2026-10-11", [],
    List.replicate 15 sampleFinancialRecord⟩

def sampleReport0 : reportContent :=
  ⟨7, "Weekly", "Financial", "Last 7 days", "PDF", "2026-10-11", [], []⟩

/-- Witness for C4: 15 records give exactly the renderings of the first
12 records as rows and the overflow note for 3; zero records give the
placeholder row. -/
theorem highlight_rows_spec_witness :
    (buildRecordHighlights sampleReport15).2.1 =
        (sampleReport15.records.take 12).enum.map (highlightRow sampleReport15) ∧
      (buildRecordHighlights sampleReport15).2.1.length = 12 ∧
      (buildRecordHighlights sampleReport15).2.2 = "3 additional records not shown." ∧
      buildRecordHighlights sampleReport0 =
        (["#", "Details"], [["1", "No records available in this range."]], "") :=
  ⟨((highlight_rows_spec sampleReport15).2.1 (by decide)).1,
   ((highlight_rows_spec sampleReport15).2.1 (by decide)).2.1,
   (((highlight_rows_spec sampleReport15).2.1 (by decide)).2.2).trans (by decide),
   (highlight_rows_spec sampleReport0).1 rfl⟩

/-- The summary map built by the default (Financial) branch of
buildReportContent in reports_helpers.go, as a function of the aggregated
sales totals and the expense total read from the data source. -/
def financialSummary (grossRevenue netRevenue vatCollected expense : ℚ) :
    List (String × GoVal) :=
  [("totalRevenue", GoVal.vfloat grossRevenue), ("grossRevenue", GoVal.vfloat grossRevenue),
   ("netRevenue", GoVal.vfloat netRevenue), ("vatCollected", GoVal.vfloat vatCollected),
   ("totalExpenses", GoVal.vfloat expense), ("profit", GoVal.vfloat (netRevenue - expense))]

/-- The record shaping of the Financial branch of buildReportContent: a
date-descending merged feed row becomes the map with date, type, item and
amount entries. -/
def financialRecords (rows : List (String × String × String × ℚ)) :
    List (List (String × GoVal)) :=
  rows.map (fun r =>
    [("date", GoVal.vstr r.1), ("type", GoVal.vstr r.2.1),
     ("item", GoVal.vstr r.2.2.1), ("amount", GoVal.vfloat r.2.2.2)])

/-- The Financial branch of buildReportContent with the data-source
aggregates supplied as inputs. -/
def buildFinancialReportContent (id : Int)
    (title category dateRange format generatedOn : String)
    (grossRevenue netRevenue vatCollected expense : ℚ)
    (rows : List (String × String × String × ℚ)) : reportContent :=
  { id := id, title := title, category := normalizeReportType category,
    dateRange := normalizeDateRange dateRange, format := normalizeReportFormat format,
    generatedOn := generatedOn,
    summary := financialSummary grossRevenue netRevenue vatCollected expense,
    records := financialRecords rows }

/-- Counterexample to C6 as stated: the Financial summary key set is not
the claimed five-element set, because the code also stores totalRevenue. -/
theorem financial_summary_cex :
    ¬(∀ k, k ∈ (financialSummary 0 0 0 0).map Prod.fst ↔
        k ∈ (["grossRevenue", "netRevenue", "vatCollected", "totalExpenses",
          "profit"] : List String)) :=
  fun h => absurd ((h "totalRevenue").mp (by decide)) (by decide)

/-- Claim C6 (amended): the Financial summary has exactly the six keys
totalRevenue, grossRevenue, netRevenue, vatCollected, totalExpenses and
profit, with the profit entry equal to netRevenue minus the expense total
and totalRevenue duplicating grossRevenue; with an expense total of 30
the profit is netRevenue minus 30. -/
theorem financial_summary_spec (g n v e : ℚ) :
    (financialSummary g n v e).map Prod.fst =
        ["totalRevenue", "grossRevenue", "netRevenue", "vatCollected", "totalExpenses",
          "profit"] ∧
      mapGet (financialSummary g n v e) "profit" = some (GoVal.vfloat (n - e)) ∧
      mapGet (financialSummary g n v e) "totalRevenue" = some (GoVal.vfloat g) ∧
      mapGet (financialSummary g n v e) "totalExpenses" = some (GoVal.vfloat e) ∧
      (buildFinancialReportContent 1 "t" "Financial" "Last 7 days" "JSON" "2026-10-11"
          g n v 30 []).summary =
        financialSummary g n v 30 ∧
      mapGet (financialSummary g n v 30) "profit" = some (GoVal.vfloat (n - 30)) :=
  ⟨rfl, rfl, rfl, rfl, rfl, rfl⟩

/-- writeCSVReport from reports_helpers.go, modelled as the sequence of
records handed to the csv writer: each Write call contributes one record,
and an empty record renders as a blank separator line. -/
def writeCSVReport (report : reportContent) : List (List String) :=
  let head :=
    [["report_id", toString report.id], ["title", report.title],
     ["category", report.category], ["date_range", report.dateRange],
     ["generated_on", report.generatedOn], []]
  let keys := List.insertionSort (fun a b => a ≤ b) (report.summary.map Prod.fst)
  let summaryLines := keys.map (fun k => [k, sprintGet report.summary k])
  let head2 := head ++ [["summary_key", "summary_value"]] ++ summaryLines ++ [[]]
  match report.records with
  | [] => head2 ++ [["records", "none"]]
  | r0 :: _ =>
    let recordKeys := List.insertionSort (fun a b => a ≤ b) (r0.map Prod.fst)
    head2 ++ [recordKeys] ++
      report.records.map (fun r => recordKeys.map (fun k => sprintGet r k))

/-- Claim C9: the CSV consists of the five key/value lines in order, a
blank separator, the summary header followed by the summary pairs sorted
alphabetically by key, a blank separator, and then either the single
records,none line (no records) or the alphabetically sorted header row of
the first record followed by one row per record in existing order. -/
theorem csv_layout_spec (report : reportContent) :
    ∃ sumKeys recKeys,
      writeCSVReport report =
          [["report_id", toString report.id], ["title", report.title],
           ["category", report.category], ["date_range", report.dateRange],
           ["generated_on", report.generatedOn], [], ["summary_key", "summary_value"]] ++
            sumKeys.map (fun k => [k, sprintGet report.summary k]) ++ [[]] ++
            (if report.records.isEmpty then [["records", "none"]]
             else recKeys ::
               report.records.map (fun r => recKeys.map (fun k => sprintGet r k))) ∧
        List.Sorted (fun a b : String => a ≤ b) sumKeys ∧
        sumKeys.Perm (report.summary.map Prod.fst) ∧
        List.Sorted (fun a b : String => a ≤ b) recKeys ∧
        recKeys.Perm ((report.records.headD []).map Prod.fst) := by
  refine ⟨List.insertionSort (fun a b => a ≤ b) (report.summary.map Prod.fst),
    List.insertionSort (fun a b => a ≤ b) ((report.records.headD []).map Prod.fst),
    ?_, List.sorted_insertionSort _ _, List.perm_insertionSort _ _,
    List.sorted_insertionSort _ _, List.perm_insertionSort _ _⟩
  unfold writeCSVReport
  dsimp only
  rcases report.records with _ | ⟨r0, rest⟩
  · simp [List.append_assoc]
  · simp [List.append_assoc]

/-- Model of a Go time.Time instant in the server location: a civil date
plus the second of the day. -/
structure GoTime where
  year : Int
  month : Nat
  day : Nat
  secs : Nat
deriving DecidableEq

/-- Gregorian leap-year rule (as in Go time.isLeap). -/
def isLeap (y : Int) : Bool := (y % 4 = 0 && y % 100 ≠ 0) || y % 400 = 0

def daysInMonth (y : Int) (m : Nat) : Nat :=
  if m = 2 then (if isLeap y then 29 else 28)
  else if m = 4 ∨ m = 6 ∨ m = 9 ∨ m = 11 then 30
  else 31

def validTime (t : GoTime) : Prop :=
  1 ≤ t.month ∧ t.month ≤ 12 ∧ 1 ≤ t.day ∧ t.day ≤ daysInMonth t.year t.month ∧
    t.secs < 86400

instance (t : GoTime) : Decidable (validTime t) := by
  unfold validTime
  infer_instance

/-- The previous calendar day at the same clock time. -/
def prevDay (t : GoTime) : GoTime :=
  if 1 < t.day then ⟨t.year, t.month, t.day - 1, t.secs⟩
  else if 1 < t.month then ⟨t.year, t.month - 1, daysInMonth t.year (t.month - 1), t.secs⟩
  else ⟨t.year - 1, 12, 31, t.secs⟩

/-- Model of the Go library call t.AddDate(0, 0, -k): step back k
calendar days, keeping the clock time. -/
def subDays : GoTime → Nat → GoTime
  | t, 0 => t
  | t, k + 1 => subDays (prevDay t) k

/-- Model of the Go library call
time.Date(t.Year(), t.Month(), 1, 0, 0, 0, 0, loc): midnight on the
first day of the month of t. -/
def firstOfMonth (t : GoTime) : GoTime := ⟨t.year, t.month, 1, 0⟩

/-- resolveDateRangeWindow from reports_helpers.go. -/
def resolveDateRangeWindow (dateRange : String) (now : GoTime) : GoTime × GoTime :=
  if normalizeDateRange dateRange = "Last 30 days" then (subDays now 29, now)
  else if normalizeDateRange dateRange = "This month" then (firstOfMonth now, now)
  else (subDays now 6, now)

def monthDaysBefore : Nat → Nat
  | 1 => 0 | 2 => 31 | 3 => 59 | 4 => 90 | 5 => 120 | 6 => 151
  | 7 => 181 | 8 => 212 | 9 => 243 | 10 => 273 | 11 => 304 | 12 => 334
  | _ => 0

def dayOfYear (t : GoTime) : Nat :=
  monthDaysBefore t.month + (if 2 < t.month ∧ isLeap t.year then 1 else 0) + t.day

def leapsBefore (y : Int) : Int := (y - 1) / 4 - (y - 1) / 100 + (y - 1) / 400

/-- Linear day index of a civil instant in the proleptic Gregorian
calendar; one calendar day back decreases it by exactly one. -/
def toDayCount (t : GoTime) : Int :=
  365 * (t.year - 1) + leapsBefore t.year + (dayOfYear t : Int)

/-- Chronological order of instants. -/
def timeLE (a b : GoTime) : Prop :=
  toDayCount a < toDayCount b ∨ (toDayCount a = toDayCount b ∧ a.secs ≤ b.secs)

theorem daysInMonth_pos (y : Int) (m : Nat) : 1 ≤ daysInMonth y m := by
  unfold daysInMonth
  split_ifs <;> omega

theorem isLeap_iff (y : Int) :
    isLeap y = true ↔ ((y % 4 = 0 ∧ ¬y % 100 = 0) ∨ y % 400 = 0) := by
  unfold isLeap
  simp [Bool.or_eq_true, Bool.and_eq_true, decide_eq_true_eq]

theorem prevDay_secs (t : GoTime) : (prevDay t).secs = t.secs := by
  unfold prevDay
  split_ifs <;> rfl

theorem prevDay_valid (t : GoTime) (h : validTime t) : validTime (prevDay t) := by
  obtain ⟨hm1, hm2, hd1, hd2, hs⟩ := h
  unfold prevDay
  split_ifs with h1 h2
  · exact ⟨hm1, hm2, by dsimp only; omega, by dsimp only; omega, hs⟩
  · exact ⟨by dsimp only; omega, by dsimp only; omega,
      by dsimp only; exact daysInMonth_pos _ _, by dsimp only; exact le_refl _, hs⟩
  · refine ⟨by dsimp only; omega, by dsimp only; omega, by dsimp only; omega, ?_, hs⟩
    dsimp only
    show 31 ≤ daysInMonth (t.year - 1) 12
    simp [daysInMonth]

theorem toDayCount_prevDay (t : GoTime) (h : validTime t) :
    toDayCount (prevDay t) = toDayCount t - 1 := by
  obtain ⟨hm1, hm2, hd1, hd2, _⟩ := h
  unfold prevDay
  split_ifs with h1 h2
  · unfold toDayCount dayOfYear
    dsimp only
    omega
  · have hd : t.day = 1 := by omega
    unfold toDayCount dayOfYear
    dsimp only
    rw [hd]
    interval_cases t.month <;>
      (cases hL : isLeap t.year <;>
        simp [monthDaysBefore, daysInMonth, hL] <;> omega)
  · have hd : t.day = 1 := by omega
    have hm : t.month = 1 := by omega
    unfold toDayCount dayOfYear leapsBefore
    dsimp only
    rw [hd, hm]
    simp only [monthDaysBefore]
    cases hL : isLeap (t.year - 1)
    · have hLP : ¬(((t.year - 1) % 4 = 0 ∧ ¬(t.year - 1) % 100 = 0) ∨
          (t.year - 1) % 400 = 0) := by
        rw [← isLeap_iff, hL]
        exact Bool.false_ne_true
      simp
      omega
    · have hLP := (isLeap_iff (t.year - 1)).mp hL
      simp
      omega

theorem subDays_spec (k : Nat) (t : GoTime) (h : validTime t) :
    validTime (subDays t k) ∧ toDayCount (subDays t k) = toDayCount t - k ∧
      (subDays t k).secs = t.secs := by
  induction k generalizing t with
  | zero => exact ⟨h, by simp [subDays], rfl⟩
  | succ n ih =>
    have hv := prevDay_valid t h
    obtain ⟨a, b, c⟩ := ih (prevDay t) hv
    refine ⟨a, ?_, ?_⟩
    · rw [show subDays t (n + 1) = subDays (prevDay t) n from rfl, b,
        toDayCount_prevDay t h]
      push_cast
      ring
    · rw [show subDays t (n + 1) = subDays (prevDay t) n from rfl, c, prevDay_secs]

/-- Claim C5: the resolver window always ends at now and starts no later
than now; Last 7 days (also the default for unrecognized input) starts 6
calendar days before now, Last 30 days starts 29 calendar days before
now, and This month starts at midnight on the first day of the month of
now. -/
theorem date_range_resolver_spec (dateRange : String) (now : GoTime)
    (h : validTime now) :
    (resolveDateRangeWindow dateRange now).2 = now ∧
      timeLE (resolveDateRangeWindow dateRange now).1 now ∧
      (normalizeDateRange dateRange = "Last 7 days" →
        (resolveDateRangeWindow dateRange now).1 = subDays now 6 ∧
          toDayCount now - toDayCount (resolveDateRangeWindow dateRange now).1 = 6 ∧
          (resolveDateRangeWindow dateRange now).1.secs = now.secs) ∧
      (normalizeDateRange dateRange = "Last 30 days" →
        (resolveDateRangeWindow dateRange now).1 = subDays now 29 ∧
          toDayCount now - toDayCount (resolveDateRangeWindow dateRange now).1 = 29 ∧
          (resolveDateRangeWindow dateRange now).1.secs = now.secs) ∧
      (normalizeDateRange dateRange = "This month" →
        (resolveDateRangeWindow dateRange now).1 = ⟨now.year, now.month, 1, 0⟩) := by
  have hfm : timeLE (firstOfMonth now) now := by
    obtain ⟨hm1, hm2, hd1, hd2, hs⟩ := h
    rcases Nat.lt_or_ge 1 now.day with hgt | hle
    · left
      unfold firstOfMonth toDayCount dayOfYear
      dsimp only
      omega
    · right
      constructor
      · unfold firstOfMonth toDayCount dayOfYear
        dsimp only
        omega
      · exact Nat.zero_le _
  have hnd := normalizeDateRange_mem dateRange
  simp only [List.mem_cons, List.not_mem_nil, or_false] at hnd
  rcases hnd with hn | hn | hn
  · have hres : resolveDateRangeWindow dateRange now = (subDays now 6, now) := by
      unfold resolveDateRangeWindow
      rw [hn, if_neg (show ¬("Last 7 days" : String) = "Last 30 days" by decide),
        if_neg (show ¬("Last 7 days" : String) = "This month" by decide)]
    obtain ⟨_, hb, hc⟩ := subDays_spec 6 now h
    have h1 : (resolveDateRangeWindow dateRange now).1 = subDays now 6 := by rw [hres]
    refine ⟨by rw [hres], ?_, fun _ => ⟨h1, ?_, ?_⟩, fun hco => ?_, fun hco => ?_⟩
    · rw [h1]
      exact Or.inl (by rw [hb]; omega)
    · rw [h1, hb]
      omega
    · rw [h1]
      exact hc
    · rw [hn] at hco
      exact absurd hco (by decide)
    · rw [hn] at hco
      exact absurd hco (by decide)
  · have hres : resolveDateRangeWindow dateRange now = (subDays now 29, now) := by
      unfold resolveDateRangeWindow
      rw [hn, if_pos (rfl : ("Last 30 days" : String) = "Last 30 days")]
    obtain ⟨_, hb, hc⟩ := subDays_spec 29 now h
    have h1 : (resolveDateRangeWindow dateRange now).1 = subDays now 29 := by rw [hres]
    refine ⟨by rw [hres], ?_, fun hco => ?_, fun _ => ⟨h1, ?_, ?_⟩, fun hco => ?_⟩
    · rw [h1]
      exact Or.inl (by rw [hb]; omega)
    · rw [hn] at hco
      exact absurd hco (by decide)
    · rw [h1, hb]
      omega
    · rw [h1]
      exact hc
    · rw [hn] at hco
      exact absurd hco (by decide)
  · have hres : resolveDateRangeWindow dateRange now = (firstOfMonth now, now) := by
      unfold resolveDateRangeWindow
      rw [hn, if_neg (show ¬("This month" : String) = "Last 30 days" by decide),
        if_pos (rfl : ("This month" : String) = "This month")]
    have h1 : (resolveDateRangeWindow dateRange now).1 = firstOfMonth now := by rw [hres]
    refine ⟨by rw [hres], by rw [h1]; exact hfm, fun hco => ?_, fun hco => ?_,
      fun _ => by rw [h1]; rfl⟩
    · rw [hn] at hco
      exact absurd hco (by decide)
    · rw [hn] at hco
      exact absurd hco (by decide)

/-- Witness for C5 at a concrete instant and concrete range strings. -/
theorem date_range_resolver_spec_witness :
    (resolveDateRangeWindow "whenever" ⟨2026, 10, 11, 3600⟩).2 = ⟨2026, 10, 11, 3600⟩ ∧
      toDayCount ⟨2026, 10, 11, 3600⟩ -
          toDayCount (resolveDateRangeWindow "whenever" ⟨2026, 10, 11, 3600⟩).1 = 6 ∧
      (resolveDateRangeWindow "This month" ⟨2026, 10, 11, 3600⟩).1 = ⟨2026, 10, 1, 0⟩ :=
  ⟨(date_range_resolver_spec "whenever" ⟨2026, 10, 11, 3600⟩ (by decide)).1,
   ((date_range_resolver_spec "whenever" ⟨2026, 10, 11, 3600⟩ (by decide)).2.2.1
      (by decide)).2.1,
   (date_range_resolver_spec "This month" ⟨2026, 10, 11, 3600⟩ (by decide)).2.2.2.2
      (by decide)⟩

/-- Model of strings.Fields: split on runs of whitespace. -/
def fieldsAux : List Char → List Char → List (List Char)
  | [], cur => if cur.isEmpty then [] else [cur.reverse]
  | c :: rest, cur =>
    if goIsSpace c then
      if cur.isEmpty then fieldsAux rest [] else cur.reverse :: fieldsAux rest []
    else fieldsAux rest (c :: cur)

def goFields (s : String) : List String := (fieldsAux s.data []).map (fun l => ⟨l⟩)

def wrapLoop (max : Nat) : String → List String → List String
  | current, [] => [current]
  | current, next :: rest =>
    if current.length + 1 + next.length ≤ max then
      wrapLoop max (current ++ " " ++ next) rest
    else current :: wrapLoop max next rest

/-- wrapPDFText from reports_helpers.go. -/
def wrapPDFText (input : String) (max : Nat) : List String :=
  let v := goTrim input
  if v = "" then [""]
  else
    match goFields v with
    | [] => [""]
    | w :: ws => wrapLoop max w ws

/-- parseMetricLine from reports_helpers.go. -/
def parseMetricLine (line : String) : String × String :=
  let t := goTrim line
  match subIdx [':'] t.data with
  | some i => (goTrim ⟨t.data.take i⟩, goTrim ⟨t.data.drop (i + 1)⟩)
  | none => ("metric", t)

/-- categoryTheme from reports_helpers.go (float64 RGB components as
rationals). -/
def categoryTheme (category : String) : ℚ × ℚ × ℚ :=
  let c := goLower (goTrim category)
  if c = "health" then (66 / 100, 27 / 100, 24 / 100)
  else if c = "resources" then (31 / 100, 40 / 100, 18 / 100)
  else if c = "sales" then (12 / 100, 34 / 100, 48 / 100)
  else (14 / 100, 45 / 100, 30 / 100)

/-- highlightColumnWidths from reports_helpers.go. -/
def highlightColumnWidths (category : String) (headerCount : Nat) : List Nat :=
  let c := goLower (goTrim category)
  if c = "financial" then [26, 82, 62, 218, 96]
  else if c = "sales" then [24, 70, 118, 72, 134, 78]
  else if c = "resources" then [24, 70, 88, 64, 88, 86]
  else if c = "health" then [24, 66, 64, 88, 142, 112]
  else if headerCount ≤ 2 then [24, 472]
  else 24 :: List.replicate (headerCount - 1) (472 / (headerCount - 1))

/-- pdfEscape from reports_helpers.go (escape backslash and both
parentheses). -/
def pdfEscape (s : String) : String :=
  ⟨s.data.foldr (fun c acc =>
    if c = '\\' then '\\' :: '\\' :: acc
    else if c = '(' then '\\' :: '(' :: acc
    else if c = ')' then '\\' :: ')' :: acc
    else c :: acc) []⟩

def metaLinesOf (report : reportContent) : List String :=
  ["Title: " ++ report.title, "Category: " ++ report.category,
   "Date Range: " ++ report.dateRange, "Generated On: " ++ report.generatedOn]

/-- One metadata line of the snapshot panel: draw the wrapped pieces,
advancing y by 14 and stopping once y would leave the panel. -/
def drawMetaInner : Int → List String → String × Int
  | y, [] => ("", y)
  | y, w :: rest =>
    let out := "0.20 0.22 0.20 rg BT /F1 10 Tf 50 " ++ toString y ++ " Td (" ++
      pdfEscape w ++ ") Tj ET\n"
    if y - 14 < 622 then (out, y - 14)
    else
      let r := drawMetaInner (y - 14) rest
      (out ++ r.1, r.2)

def drawMetaLines : Int → List String → String × Int
  | y, [] => ("", y)
  | y, line :: rest =>
    let inner := drawMetaInner y (wrapPDFText line 78)
    let r := drawMetaLines inner.2 rest
    (inner.1 ++ r.1, r.2)

/-- The summary metric cards: at most six, on a three-column two-row
grid. -/
def drawSummaryCards (aR aG aB : ℚ) (summaryLines : List String) : String × Nat :=
  let cards := summaryLines.take 6
  (String.join (cards.enum.map (fun p =>
    let kv := parseMetricLine p.2
    let x := [50, 216, 382].getD (p.1 % 3) 0
    let yy := [538, 500].getD (p.1 / 3) 0
    "0.97 0.96 0.93 rg " ++ toString x ++ " " ++ toString yy ++ " 161 30 re f\n" ++
      "0.86 0.84 0.79 RG 0.8 w " ++ toString x ++ " " ++ toString yy ++ " 161 30 re S\n" ++
      "0.30 0.32 0.30 rg BT /F1 8 Tf " ++ toString (x + 8) ++ " " ++ toString (yy + 18) ++
        " Td (" ++ pdfEscape (shortenPDFText kv.1 26) ++ ") Tj ET\n" ++
      formatFixed2 (aR * (9 / 10)) ++ " " ++ formatFixed2 (aG * (9 / 10)) ++ " " ++
        formatFixed2 (aB * (9 / 10)) ++ " rg BT /F2 10 Tf " ++ toString (x + 8) ++ " " ++
        toString (yy + 7) ++ " Td (" ++ pdfEscape (shortenPDFText kv.2 24) ++ ") Tj ET\n")),
    cards.length)

/-- The record-table header cells at fixed x offsets. -/
def drawHeaderCells : Int → List String → List Nat → String
  | _, [], _ => ""
  | x, hcell :: hs, widths =>
    "BT /F2 8 Tf " ++ toString x ++ " 412 Td (" ++
      pdfEscape (shortenPDFText hcell 22) ++ ") Tj ET\n" ++
      match widths with
      | [] => drawHeaderCells x hs []
      | w :: ws => drawHeaderCells (x + w) hs ws

/-- The cells of one record row, each truncated to its column budget. -/
def drawRowCells : Int → Int → List String → List Nat → String
  | _, _, [], _ => ""
  | x, y, cell :: cs, widths =>
    let width := match widths with | [] => 92 | w :: _ => w
    "0.24 0.26 0.24 rg BT /F1 7 Tf " ++ toString x ++ " " ++ toString (y + 5) ++
        " Td (" ++ pdfEscape (shortenPDFText cell (cellMaxChars width)) ++ ") Tj ET\n" ++
      drawRowCells (x + (width : Int)) y cs (widths.drop 1)

/-- The record rows with alternating shading, stopping once y drops
below the panel floor. -/
def drawRows (widths : List Nat) : Int → Nat → List (List String) → String
  | _, _, [] => ""
  | y, rowIdx, row :: rows =>
    if y < 70 then ""
    else
      (if rowIdx % 2 = 0 then "0.98 0.97 0.95 rg " else "0.96 0.95 0.92 rg ") ++
        "50 " ++ toString (y - 4) ++ " 496 22 re f\n" ++
        "0.88 0.86 0.82 RG 0.3 w 50 " ++ toString (y - 4) ++ " 496 22 re S\n" ++
        drawRowCells 58 y row widths ++
        drawRows widths (y - 22) (rowIdx + 1) rows

/-- The content stream assembled by buildStyledPDF in drawing order. -/
def pdfStream (report : reportContent) (summaryLines recordHeaders0 : List String)
    (recordRows : List (List String)) (overflowNote : String) : String :=
  let theme := categoryTheme report.category
  let aR := theme.1
  let aG := theme.2.1
  let aB := theme.2.2
  let recordHeaders := if recordHeaders0.isEmpty then ["#", "Details"] else recordHeaders0
  let columnWidths := highlightColumnWidths report.category recordHeaders.length
  let cards := drawSummaryCards aR aG aB summaryLines
  "0.95 0.94 0.91 rg 0 0 595 842 re f\n" ++
    "0.91 0.90 0.86 rg 0 0 595 220 re f\n" ++
    formatFixed2 aR ++ " " ++ formatFixed2 aG ++ " " ++ formatFixed2 aB ++
      " rg 0 758 595 84 re f\n" ++
    formatFixed2 (aR * (85 / 100)) ++ " " ++ formatFixed2 (aG * (85 / 100)) ++ " " ++
      formatFixed2 (aB * (85 / 100)) ++ " rg 0 742 595 16 re f\n" ++
    "1 1 1 rg BT /F2 24 Tf 48 806 Td (FarmPro Report) Tj ET\n" ++
    "0.92 0.96 0.94 rg BT /F1 10 Tf 48 786 Td (Operational export summary) Tj ET\n" ++
    "1 1 1 rg BT /F1 10 Tf 435 806 Td (" ++
      pdfEscape ("Report #" ++ toString report.id) ++ ") Tj ET\n" ++
    "0.98 0.98 0.97 rg 36 610 523 132 re f\n" ++
    "0.86 0.84 0.79 RG 1 w 36 610 523 132 re S\n" ++
    formatFixed2 aR ++ " " ++ formatFixed2 aG ++ " " ++ formatFixed2 aB ++
      " rg 36 610 6 132 re f\n" ++
    "0.18 0.20 0.18 rg BT /F2 13 Tf 50 722 Td (Report Snapshot) Tj ET\n" ++
    (drawMetaLines 703 (metaLinesOf report)).1 ++
    "0.99 0.98 0.96 rg 36 466 523 128 re f\n" ++
    "0.86 0.84 0.79 RG 1 w 36 466 523 128 re S\n" ++
    formatFixed2 aR ++ " " ++ formatFixed2 aG ++ " " ++ formatFixed2 aB ++
      " rg 36 586 523 8 re f\n" ++
    "0.18 0.20 0.18 rg BT /F2 13 Tf 50 574 Td (Summary Metrics) Tj ET\n" ++
    cards.1 ++
    (if cards.2 = 0 then
      "0.30 0.32 0.30 rg BT /F1 10 Tf 52 526 Td (No summary metrics available.) Tj ET\n"
    else "") ++
    "0.99 0.98 0.96 rg 36 48 523 402 re f\n" ++
    "0.86 0.84 0.79 RG 1 w 36 48 523 402 re S\n" ++
    formatFixed2 aR ++ " " ++ formatFixed2 aG ++ " " ++ formatFixed2 aB ++
      " rg 36 442 523 8 re f\n" ++
    "0.18 0.20 0.18 rg BT /F2 13 Tf 50 430 Td (Record Highlights) Tj ET\n" ++
    "0.94 0.94 0.92 rg 50 406 496 20 re f\n" ++
    "0.30 0.32 0.30 rg " ++
    drawHeaderCells 58 recordHeaders columnWidths ++
    drawRows columnWidths 390 0 recordRows ++
    (if overflowNote = "" then ""
    else "0.30 0.32 0.30 rg BT /F1 8 Tf 58 60 Td (" ++ pdfEscape overflowNote ++
      ") Tj ET\n") ++
    formatFixed2 (aR * (9 / 10)) ++ " " ++ formatFixed2 (aG * (9 / 10)) ++ " " ++
      formatFixed2 (aB * (9 / 10)) ++ " rg 0 0 595 28 re f\n" ++
    "0.94 0.96 0.94 rg BT /F1 9 Tf 48 11 Td (Generated by FarmPro Analytics Engine) Tj ET\n" ++
    "0.94 0.96 0.94 rg BT /F1 9 Tf 430 11 Td (" ++ pdfEscape report.generatedOn ++
      ") Tj ET\n"

/-- The six objects of the PDF object graph (Catalog, Pages, Page,
content stream, two fonts), with byte lengths measured in UTF-8. -/
def pdfObjects (streamStr : String) : List String :=
  ["<< /Type /Catalog /Pages 2 0 R >>",
   "<< /Type /Pages /Kids [3 0 R] /Count 1 >>",
   "<< /Type /Page /Parent 2 0 R /MediaBox [0 0 595 842] /Contents 4 0 R /Resources << /Font << /F1 5 0 R /F2 6 0 R >> >> >>",
   "<< /Length " ++ toString streamStr.utf8ByteSize ++ " >>\nstream\n" ++ streamStr ++
     "endstream",
   "<< /Type /Font /Subtype /Type1 /BaseFont /Helvetica >>",
   "<< /Type /Font /Subtype /Type1 /BaseFont /Helvetica-Bold >>"]

def pad10 (n : Nat) : String :=
  let s := toString n
  ⟨List.replicate (10 - s.length) '0'⟩ ++ s

/-- The number written as the Size entry of the trailer and as the xref
entry count: the object count plus the free-list head. -/
def pdfSizeField (objects : List String) : Nat := objects.length + 1

/-- One step of the body loop: append the numbered object and record the
byte offset it starts at. -/
def pdfObjStep (acc : String × List Nat) (io : Nat × String) : String × List Nat :=
  (acc.1 ++ toString (io.1 + 1) ++ " 0 obj\n" ++ io.2 ++ "\nendobj\n",
   acc.2 ++ [acc.1.utf8ByteSize])

/-- Body, cross-reference table, trailer and terminator assembly of
buildStyledPDF. -/
def pdfAssemble (objects : List String) : String :=
  let bo := objects.enum.foldl pdfObjStep ("%PDF-1.4\n", [])
  let xrefStart := bo.1.utf8ByteSize
  let xrefSection := "xref\n0 " ++ toString (pdfSizeField objects) ++ "\n" ++
    "0000000000 65535 f \n" ++ String.join (bo.2.map (fun o => pad10 o ++ " 00000 n \n"))
  let trailerSection := "trailer\n<< /Size " ++ toString (pdfSizeField objects) ++
    " /Root 1 0 R >>\n" ++ "startxref\n" ++ toString xrefStart ++ "\n%%EOF"
  (bo.1 ++ xrefSection) ++ trailerSection

/-- buildStyledPDF from reports_helpers.go. -/
def buildStyledPDF (report : reportContent) (summaryLines recordHeaders : List String)
    (recordRows : List (List String)) (overflowNote : String) : String :=
  pdfAssemble (pdfObjects (pdfStream report summaryLines recordHeaders recordRows
    overflowNote))

theorem pdfFold_fst (l : List (Nat × String)) (a : String) (offs : List Nat) :
    ∃ t, (List.foldl pdfObjStep (a, offs) l).1 = a ++ t := by
  induction l generalizing a offs with
  | nil => exact ⟨"", by simp⟩
  | cons x xs ih =>
    obtain ⟨t, ht⟩ := ih (a ++ toString (x.1 + 1) ++ " 0 obj\n" ++ x.2 ++ "\nendobj\n")
      (offs ++ [a.utf8ByteSize])
    refine ⟨toString (x.1 + 1) ++ " 0 obj\n" ++ x.2 ++ "\nendobj\n" ++ t, ?_⟩
    rw [List.foldl_cons]
    have hstep : pdfObjStep (a, offs) x =
        (a ++ toString (x.1 + 1) ++ " 0 obj\n" ++ x.2 ++ "\nendobj\n",
         offs ++ [a.utf8ByteSize]) := rfl
    rw [hstep, ht]
    simp [String.append_assoc]

/-- Counterexample to C2 as stated: the number the code writes after the
Size marker is the object count plus one, which is seven, not six. -/
theorem pdf_size_cex :
    buildStyledPDF sampleReport0 [] [] [] "" =
        pdfAssemble (pdfObjects (pdfStream sampleReport0 [] [] [] "")) ∧
      pdfSizeField (pdfObjects (pdfStream sampleReport0 [] [] [] "")) = 7 ∧
      pdfSizeField (pdfObjects (pdfStream sampleReport0 [] [] [] "")) ≠ 6 :=
  ⟨rfl, rfl, by decide⟩

/-- Claim C2 (amended): for every report content and every choice of
summary lines, headers, rows and overflow note, the PDF bytes start with
the header marker, end with the EOF marker with no trailing newline, and
the number written after the Size marker in the trailer is 7 (the six
objects plus the free-list head), not the 6 the spec stated. -/
theorem buildStyledPDF_spec (report : reportContent)
    (summaryLines recordHeaders : List String) (recordRows : List (List String))
    (overflowNote : String) :
    ∃ (mid : String) (n : Nat),
      buildStyledPDF report summaryLines recordHeaders recordRows overflowNote =
        "%PDF-1.4\n" ++ mid ++
          ("trailer\n<< /Size 7 /Root 1 0 R >>\n" ++ "startxref\n" ++ toString n ++
            "\n%%EOF") := by
  unfold buildStyledPDF pdfAssemble
  dsimp only
  obtain ⟨t, ht⟩ :=
    pdfFold_fst (pdfObjects (pdfStream report summaryLines recordHeaders recordRows
      overflowNote)).enum "%PDF-1.4\n" []
  have hsz : pdfSizeField (pdfObjects (pdfStream report summaryLines recordHeaders
      recordRows overflowNote)) = 7 := rfl
  have h7 : ("trailer\n<< /Size " ++
      toString (pdfSizeField (pdfObjects (pdfStream report summaryLines recordHeaders
        recordRows overflowNote))) ++ " /Root 1 0 R >>\n" : String) =
      "trailer\n<< /Size 7 /Root 1 0 R >>\n" := by rw [hsz]; rfl
  rw [ht, String.append_assoc "%PDF-1.4\n" t, h7]
  exact ⟨_, _, rfl⟩

end FarmPro
